import Mathlib

/-!
Verification of the metadata model and structured file writer of the
Open Ephys GUI plugin sources (`Source/Processors/Channel/MetaData.h`,
`Source/Plugins/NWBFormat/NWBFormat.h`).

The repository ships only the headers; the member-function bodies live in
translation units that are not part of the given sources.  The data layout
(fields, enum ordering, default member initializers) is taken from the
headers; each function body is modelled from the specification and marked
as such in its doc comment.

Bytes are modelled abstractly as natural numbers: the metadata machinery
never interprets the payload bytes, it only moves them around, so the
byte-for-byte statements below are list equalities.
-/

/-- Enumeration `MetaDataDescriptor::MetaDataTypes` from MetaData.h,
constructors in source order. -/
inductive MetaDataTypes where
  | CHAR
  | INT8
  | UINT8
  | INT16
  | UINT16
  | INT32
  | UINT32
  | INT64
  | UINT64
  | FLOAT
  | DOUBLE
deriving DecidableEq, Repr

/-- Private fields of class `MetaDataDescriptor` from MetaData.h. -/
structure MetaDataDescriptor where
  m_type : MetaDataTypes
  m_length : Nat
  m_name : String
  m_desc : String
deriving DecidableEq, Repr

/-- Modelled from the spec: the body of static `MetaDataDescriptor::getTypeSize`
is in the missing MetaData.cpp; the spec fixes the mapping CHAR/INT8/UINT8 to 1,
INT16/UINT16 to 2, INT32/UINT32/FLOAT to 4, INT64/UINT64/DOUBLE to 8. -/
def MetaDataDescriptor.getTypeSize : MetaDataTypes → Nat
  | .CHAR => 1
  | .INT8 => 1
  | .UINT8 => 1
  | .INT16 => 2
  | .UINT16 => 2
  | .INT32 => 4
  | .UINT32 => 4
  | .INT64 => 8
  | .UINT64 => 8
  | .FLOAT => 4
  | .DOUBLE => 8

def MetaDataDescriptor.getType (d : MetaDataDescriptor) : MetaDataTypes := d.m_type

def MetaDataDescriptor.getLength (d : MetaDataDescriptor) : Nat := d.m_length

def MetaDataDescriptor.getName (d : MetaDataDescriptor) : String := d.m_name

def MetaDataDescriptor.getDescription (d : MetaDataDescriptor) : String := d.m_desc

/-- Modelled from the spec: the body of `MetaDataDescriptor::getDataSize` is in
the missing MetaData.cpp; the spec defines the derived attribute
`dataSize = length * sizeOf(type)`. -/
def MetaDataDescriptor.getDataSize (d : MetaDataDescriptor) : Nat :=
  d.m_length * MetaDataDescriptor.getTypeSize d.m_type

/-- Private fields of class `MetaDataValue` from MetaData.h: the type tag,
the element count and the raw byte buffer (`m_data`, one abstract byte per
entry; `m_size` is the buffer length). -/
structure MetaDataValue where
  m_type : MetaDataTypes
  m_length : Nat
  m_data : List Nat
deriving DecidableEq, Repr

def MetaDataValue.getDataType (v : MetaDataValue) : MetaDataTypes := v.m_type

def MetaDataValue.getDataLength (v : MetaDataValue) : Nat := v.m_length

/-- Length of the stored byte buffer (the header's `m_size` field). -/
def MetaDataValue.getDataSize (v : MetaDataValue) : Nat := v.m_data.length

/-- Modelled from the spec: the body of `MetaDataValue::isOfType` is in the
missing MetaData.cpp; a value is of a descriptor's type when its `(type, length)`
tag equals the descriptor's. -/
def MetaDataValue.isOfType (v : MetaDataValue) (d : MetaDataDescriptor) : Bool :=
  v.m_type == d.m_type && v.m_length == d.m_length

/-- Fields of `MetaDataEventObject` (with its `MetaDataEventLock` base) from
MetaData.h: the lock flag, the descriptor array and the cached total size. -/
structure MetaDataEventObject where
  eventMetaDataLock : Bool
  m_eventMetaDataDescriptorArray : List MetaDataDescriptor
  m_totalSize : Nat
deriving DecidableEq, Repr

/-- Freshly constructed `MetaDataEventObject`: MetaData.h initializes
`eventMetaDataLock{ false }` (line 170), `m_totalSize{ 0 }` (line 186), and the
descriptor array default-constructs empty. -/
def newMetaDataEventObject : MetaDataEventObject :=
  { eventMetaDataLock := false
    m_eventMetaDataDescriptorArray := []
    m_totalSize := 0 }

def MetaDataEventObject.getEventMetaDataCount (o : MetaDataEventObject) : Nat :=
  o.m_eventMetaDataDescriptorArray.length

def MetaDataEventObject.getTotalEventMetaDataSize (o : MetaDataEventObject) : Nat :=
  o.m_totalSize

def MetaDataEventObject.getEventMetaDataDescriptor (o : MetaDataEventObject) (index : Nat) :
    Option MetaDataDescriptor :=
  o.m_eventMetaDataDescriptorArray.get? index

/-- Modelled from the spec: the body of `MetaDataEventObject::addEventMetaData`
is in the missing MetaData.cpp.  Pre-seal (lock clear) the call appends the
descriptor and adds its data size to the cached total; once the lock is set the
call fails with a permission error and the schema is unchanged.  The returned
Bool reports success. -/
def MetaDataEventObject.addEventMetaData (o : MetaDataEventObject) (d : MetaDataDescriptor) :
    MetaDataEventObject × Bool :=
  if o.eventMetaDataLock then (o, false)
  else
    ({ o with
        m_eventMetaDataDescriptorArray := o.m_eventMetaDataDescriptorArray ++ [d]
        m_totalSize := o.m_totalSize + d.getDataSize }, true)

/-- Modelled from the spec: `GenericProcessor` sets `eventMetaDataLock` to true
when copying channels downstream (MetaData.h lines 164-170); sealing is that
lock transition, with no transition back. -/
def MetaDataEventObject.seal (o : MetaDataEventObject) : MetaDataEventObject :=
  { o with eventMetaDataLock := true }

/-- Sequence of `addEventMetaData` calls, keeping only the evolving schema. -/
def MetaDataEventObject.addEventMetaDataList (o : MetaDataEventObject)
    (ds : List MetaDataDescriptor) : MetaDataEventObject :=
  List.foldl (fun s d => (s.addEventMetaData d).1) o ds

/-- Sum of the data sizes of a schema's descriptors. -/
def totalEventMetaDataSizeOf (ds : List MetaDataDescriptor) : Nat :=
  (ds.map MetaDataDescriptor.getDataSize).sum

namespace MetaDataEvent

/-- Modelled from the spec: the body of `MetaDataEvent::serializeMetaData` is in
the missing MetaData.cpp; it writes each attached value's raw bytes contiguously
into the destination buffer in schema order, with no padding and no per-field
length prefix. -/
def serializeMetaData (vs : List MetaDataValue) : List Nat :=
  (vs.map MetaDataValue.m_data).flatten

/-- Modelled from the spec: the descriptor-order loop of
`MetaDataEvent::deserializeMetaData` (missing MetaData.cpp); for each descriptor
it constructs a value of the descriptor's type and length from the next
`dataSize` bytes of the source buffer, advancing an offset cursor, and fails if
the cumulative consumed size would exceed the declared size. -/
def deserializeLoop (ds : List MetaDataDescriptor) (buf : List Nat) (ofs size : Nat) :
    Option (List MetaDataValue) :=
  match ds with
  | [] => some []
  | d :: rest =>
    let s := d.getDataSize
    if size < ofs + s then none
    else
      match deserializeLoop rest buf (ofs + s) size with
      | none => none
      | some vs => some ({ m_type := d.m_type, m_length := d.m_length,
                           m_data := (buf.drop ofs).take s } :: vs)

/-- Modelled from the spec: `MetaDataEvent::deserializeMetaData` (missing
MetaData.cpp) fails if the schema pointer is null, otherwise runs the
descriptor loop from offset 0; on failure no partial value array is returned
as valid, on success the value array is positionally aligned with the schema. -/
def deserializeMetaData (info : Option MetaDataEventObject) (srcBuffer : List Nat)
    (size : Nat) : Option (List MetaDataValue) :=
  match info with
  | none => none
  | some o => deserializeLoop o.m_eventMetaDataDescriptorArray srcBuffer 0 size

end MetaDataEvent

/-- Positional validation of a value array against a schema: same length, and
each value's `(type, length)` tag equals the corresponding descriptor's with a
byte buffer of exactly the descriptor's data size. -/
def validatesAgainst : List MetaDataValue → List MetaDataDescriptor → Bool
  | [], [] => true
  | v :: vs, d :: ds =>
    v.isOfType d && (v.m_data.length == d.getDataSize) && validatesAgainst vs ds
  | _, _ => false

/-- Shapes of the getValue/setValue accessor family of `MetaDataValue`
(MetaData.h lines 107-129): string accessors, single-scalar template
accessors, raw-array template accessors and dynamic-array template accessors,
each template instantiated at one of the 11 metadata types. -/
inductive AccessShape where
  | scalar (t : MetaDataTypes)
  | rawArray (t : MetaDataTypes)
  | dynArray (t : MetaDataTypes)
  | str
deriving DecidableEq, Repr

/-- Modelled from the spec: the guard of the accessor bodies (missing
MetaData.cpp).  A request matches when the requested type equals the value's
type tag and the shape fits its length tag: scalars need length 1, array
shapes carry the caller-side length contract, string accessors exist for CHAR
values only. -/
def MetaDataValue.accessMatches (v : MetaDataValue) : AccessShape → Bool
  | .scalar t => v.m_type == t && v.m_length == 1
  | .rawArray t => v.m_type == t
  | .dynArray t => v.m_type == t
  | .str => v.m_type == MetaDataTypes.CHAR

/-- Modelled from the spec: getValue (all shapes, missing MetaData.cpp) copies
the stored bytes out when the request matches the value's tag; a mismatched
request fails with a type-mismatch condition, performing no read and never
reinterpreting the bytes at the requested type. -/
def MetaDataValue.getValue (v : MetaDataValue) (sh : AccessShape) : Option (List Nat) :=
  if v.accessMatches sh then some v.m_data else none

/-- Modelled from the spec: setValue (all shapes, missing MetaData.cpp)
replaces the stored bytes when the request matches the value's tag; a
mismatched request fails with a type-mismatch condition and performs no write
(the value is unchanged, here: no updated value is produced). -/
def MetaDataValue.setValue (v : MetaDataValue) (sh : AccessShape) (bytes : List Nat) :
    Option MetaDataValue :=
  if v.accessMatches sh then some { v with m_data := bytes } else none

/-- Concrete descriptor used by witnesses: one INT32 scalar. -/
def sampleDescInt : MetaDataDescriptor :=
  { m_type := .INT32, m_length := 1, m_name := "pos", m_desc := "position" }

/-- Concrete descriptor used by witnesses: a CHAR buffer of length 2. -/
def sampleDescChar : MetaDataDescriptor :=
  { m_type := .CHAR, m_length := 2, m_name := "tag", m_desc := "label" }

/-- Concrete event schema used by witnesses, holding the two sample
descriptors (total data size 4 + 2 = 6). -/
def sampleSchema : MetaDataEventObject :=
  { eventMetaDataLock := true
    m_eventMetaDataDescriptorArray := [sampleDescInt, sampleDescChar]
    m_totalSize := 6 }

/-- Concrete value array used by witnesses, positionally valid for
`sampleSchema`. -/
def sampleValues : List MetaDataValue :=
  [{ m_type := .INT32, m_length := 1, m_data := [1, 2, 3, 4] },
   { m_type := .CHAR, m_length := 2, m_data := [65, 0] }]

namespace NWBRecording

/-- Struct `NWBRecordingInfo` from NWBFormat.h; the two float fields are
modelled as rationals (their values are only carried, never computed with). -/
structure NWBRecordingInfo where
  sourceName : String
  bitVolts : Rat
  processorId : Int
  sourceId : Int
  nChannels : Int
  nSamplesPerSpike : Int
  sampleRate : Rat
  spikeElectrodeName : String
deriving DecidableEq, Repr

/-- Dataset handle of the container library, reduced to the one observable the
claims speak about: its current row count. -/
structure HDF5RecordingData where
  rows : Nat
deriving DecidableEq, Repr

/-- Mutable state of class `NWBFile` from NWBFormat.h: the per-stream dataset
containers (`OwnedArray`/`ScopedPointer`, a null `ScopedPointer` modelled as
none), base paths, info structs and the per-stream counters.  The constant
fields (filename, GUI version) and the spike transform buffer carry no claim,
so they are not part of the state. -/
structure NWBFile where
  continuousDataSets : List HDF5RecordingData
  continuousDataSetsTS : List HDF5RecordingData
  continuousBasePaths : List String
  numContinuousSamples : List Nat
  continuousInfoStructs : List NWBRecordingInfo
  spikeDataSets : List HDF5RecordingData
  spikeDataSetsTS : List HDF5RecordingData
  spikeBasePaths : List String
  numSpikes : List Nat
  spikeInfoStructs : List NWBRecordingInfo
  eventsDataSet : Option HDF5RecordingData
  eventsDataSetTS : Option HDF5RecordingData
  eventsBasePath : String
  numEvents : Nat
  messagesDataSet : Option HDF5RecordingData
  messagesDataSetTS : Option HDF5RecordingData
  messagesBasePath : String
  numMessages : Nat
  eventsControlDataSet : Option HDF5RecordingData
deriving DecidableEq, Repr

/-- Append `n` rows to the dataset at index `i` of an owned dataset array
(out-of-range indices leave the array unchanged, as `List.set` does). -/
def appendRows (dsets : List HDF5RecordingData) (i n : Nat) : List HDF5RecordingData :=
  dsets.set i { rows := (dsets.getD i { rows := 0 }).rows + n }

/-- Add `n` to the counter at index `i` of a counter array. -/
def bumpCounter (cs : List Nat) (i n : Nat) : List Nat :=
  cs.set i (cs.getD i 0 + n)

/-- Append one row to an optional (shared) dataset. -/
def appendRowOpt (ds : Option HDF5RecordingData) : Option HDF5RecordingData :=
  ds.map fun r => { rows := r.rows + 1 }

/-- Modelled from the spec: `NWBFile::writeData` (missing NWBFormat.cpp)
appends `nSamples` samples for a channel to continuous dataset `datasetID`,
growing its row count by `nSamples`, and advances the per-dataset running
sample counter used as the next write's offset. -/
def NWBFile.writeData (f : NWBFile) (datasetID channel nSamples : Nat)
    (data : List Int) : NWBFile :=
  { f with
      continuousDataSets := appendRows f.continuousDataSets datasetID nSamples
      numContinuousSamples := bumpCounter f.numContinuousSamples datasetID nSamples }

/-- Modelled from the spec: `NWBFile::writeTimestamps` (missing NWBFormat.cpp)
is the parallel append of `nSamples` rows to the matching timestamp dataset;
keeping it in step with `writeData` is a caller contract. -/
def NWBFile.writeTimestamps (f : NWBFile) (datasetID nSamples : Nat)
    (data : List Rat) : NWBFile :=
  { f with
      continuousDataSetsTS := appendRows f.continuousDataSetsTS datasetID nSamples }

/-- Modelled from the spec: `NWBFile::writeSpike` (missing NWBFormat.cpp)
appends one spike waveform plus its timestamp to the addressed electrode's
dataset pair and grows that electrode's spike counter. -/
def NWBFile.writeSpike (f : NWBFile) (electrodeId : Nat) (data : List Nat)
    (timestamp : Nat) : NWBFile :=
  { f with
      spikeDataSets := appendRows f.spikeDataSets electrodeId 1
      spikeDataSetsTS := appendRows f.spikeDataSetsTS electrodeId 1
      numSpikes := bumpCounter f.numSpikes electrodeId 1 }

/-- Modelled from the spec: `NWBFile::writeTTLEvent` (missing NWBFormat.cpp)
appends one row to the shared events dataset pair and grows the events
counter. -/
def NWBFile.writeTTLEvent (f : NWBFile) (channel id : Int) (source : Nat)
    (timestamp : Nat) : NWBFile :=
  { f with
      eventsDataSet := appendRowOpt f.eventsDataSet
      eventsDataSetTS := appendRowOpt f.eventsDataSetTS
      numEvents := f.numEvents + 1 }

/-- Modelled from the spec: `NWBFile::writeMessage` (missing NWBFormat.cpp)
appends one row to the shared messages dataset pair and grows the messages
counter. -/
def NWBFile.writeMessage (f : NWBFile) (msg : String) (timestamp : Nat) : NWBFile :=
  { f with
      messagesDataSet := appendRowOpt f.messagesDataSet
      messagesDataSetTS := appendRowOpt f.messagesDataSetTS
      numMessages := f.numMessages + 1 }

/-- Modelled from the spec: sequential dataset creation for one info array
during `startNewRecording` (missing NWBFormat.cpp), one data plus one
timestamp dataset per info entry.  `env j` is the container-library oracle
telling whether the j-th creation attempted during this call succeeds; the
whole loop aborts at the first failed creation. -/
def createDataSetPairs (env : Nat → Bool) :
    Nat → List NWBRecordingInfo →
      Option (List HDF5RecordingData × List HDF5RecordingData × Nat)
  | k, [] => some ([], [], k)
  | k, _ :: rest =>
    if env k && env (k + 1) then
      match createDataSetPairs env (k + 2) rest with
      | none => none
      | some (ds, ts, k2) => some ({ rows := 0 } :: ds, { rows := 0 } :: ts, k2)
    else none

/-- Detach every dataset of the writer (failed or stopped recording: the owned
arrays are cleared and the scoped pointers nulled, so no dataset is active). -/
def clearDataSets (f : NWBFile) : NWBFile :=
  { f with
      continuousDataSets := []
      continuousDataSetsTS := []
      spikeDataSets := []
      spikeDataSetsTS := []
      eventsDataSet := none
      eventsDataSetTS := none
      messagesDataSet := none
      messagesDataSetTS := none
      eventsControlDataSet := none }

/-- Modelled from the spec: `NWBFile::startNewRecording` (missing
NWBFormat.cpp) creates one data+timestamp dataset pair per continuous info,
one pair per electrode info, then the shared events, messages and
event-control datasets (five more creations), with fresh counters; failure of
any creation aborts the whole start, reports false and leaves no dataset of
the attempt attached as active. -/
def NWBFile.startNewRecording (f : NWBFile) (env : Nat → Bool) (recordingNumber : Int)
    (continuousArray electrodeArray : List NWBRecordingInfo) : NWBFile × Bool :=
  match createDataSetPairs env 0 continuousArray with
  | none => (clearDataSets f, false)
  | some (cd, cdts, k1) =>
    match createDataSetPairs env k1 electrodeArray with
    | none => (clearDataSets f, false)
    | some (sd, sdts, k2) =>
      if env k2 && env (k2 + 1) && env (k2 + 2) && env (k2 + 3) && env (k2 + 4) then
        ({ f with
             continuousDataSets := cd
             continuousDataSetsTS := cdts
             numContinuousSamples := List.replicate continuousArray.length 0
             continuousInfoStructs := continuousArray
             spikeDataSets := sd
             spikeDataSetsTS := sdts
             numSpikes := List.replicate electrodeArray.length 0
             spikeInfoStructs := electrodeArray
             eventsDataSet := some { rows := 0 }
             eventsDataSetTS := some { rows := 0 }
             numEvents := 0
             messagesDataSet := some { rows := 0 }
             messagesDataSetTS := some { rows := 0 }
             numMessages := 0
             eventsControlDataSet := some { rows := 0 } }, true)
      else (clearDataSets f, false)

/-- Proposition that a writer holds no active dataset: every owned dataset
array is empty and every scoped dataset pointer is null. -/
def noActiveDataSets (f : NWBFile) : Prop :=
  f.continuousDataSets = [] ∧ f.continuousDataSetsTS = [] ∧
  f.spikeDataSets = [] ∧ f.spikeDataSetsTS = [] ∧
  f.eventsDataSet = none ∧ f.eventsDataSetTS = none ∧
  f.messagesDataSet = none ∧ f.messagesDataSetTS = none ∧
  f.eventsControlDataSet = none

end NWBRecording

/-- Concrete recording info used by witnesses. -/
def sampleInfo : NWBRecording.NWBRecordingInfo :=
  { sourceName := "acq", bitVolts := 1, processorId := 100, sourceId := 0,
    nChannels := 2, nSamplesPerSpike := 40, sampleRate := 30000,
    spikeElectrodeName := "el0" }

/-- Concrete writer state used by witnesses: two continuous dataset groups and
two spike electrodes, all streams active. -/
def sampleNWBFile : NWBRecording.NWBFile :=
  { continuousDataSets := [{ rows := 3 }, { rows := 4 }]
    continuousDataSetsTS := [{ rows := 3 }, { rows := 4 }]
    continuousBasePaths := ["/acquisition/timeseries/recording1/continuous0",
      "/acquisition/timeseries/recording1/continuous1"]
    numContinuousSamples := [3, 4]
    continuousInfoStructs := [sampleInfo, sampleInfo]
    spikeDataSets := [{ rows := 1 }, { rows := 2 }]
    spikeDataSetsTS := [{ rows := 1 }, { rows := 2 }]
    spikeBasePaths := ["/acquisition/timeseries/spikes/electrode0",
      "/acquisition/timeseries/spikes/electrode1"]
    numSpikes := [1, 2]
    spikeInfoStructs := [sampleInfo, sampleInfo]
    eventsDataSet := some { rows := 5 }
    eventsDataSetTS := some { rows := 5 }
    eventsBasePath := "/acquisition/timeseries/events"
    numEvents := 5
    messagesDataSet := some { rows := 6 }
    messagesDataSetTS := some { rows := 6 }
    messagesBasePath := "/acquisition/timeseries/messages"
    numMessages := 6
    eventsControlDataSet := some { rows := 5 } }

-- ----------------------------------------------------------------------
-- Helper lemmas
-- ----------------------------------------------------------------------

theorem listSet_getD_self {α : Type} (l : List α) :
    ∀ (i : Nat) (dflt : α), l.set i (l.getD i dflt) = l := by
  induction l with
  | nil => intro i dflt; rfl
  | cons a t ih =>
    intro i dflt
    cases i with
    | zero => simp [List.getD]
    | succ j =>
      simp only [List.set, List.getD, List.get?, List.cons.injEq, true_and]
      exact ih j dflt

theorem listSet_getD_ne {α : Type} (l : List α) :
    ∀ (i j : Nat) (a dflt : α), i ≠ j → (l.set i a).getD j dflt = l.getD j dflt := by
  induction l with
  | nil => intro i j a dflt _; rfl
  | cons x t ih =>
    intro i j a dflt hne
    cases i with
    | zero =>
      cases j with
      | zero => exact absurd rfl hne
      | succ m => simp [List.getD]
    | succ n =>
      cases j with
      | zero => simp [List.getD]
      | succ m =>
        simp only [List.set, List.getD, List.get?]
        exact ih n m a dflt (fun h => hne (by rw [h]))

theorem serializeMetaData_cons (v : MetaDataValue) (vs : List MetaDataValue) :
    MetaDataEvent.serializeMetaData (v :: vs) =
      v.m_data ++ MetaDataEvent.serializeMetaData vs := by
  simp [MetaDataEvent.serializeMetaData]

theorem serializeMetaData_length_of_validates :
    ∀ (ds : List MetaDataDescriptor) (vs : List MetaDataValue),
      validatesAgainst vs ds = true →
      (MetaDataEvent.serializeMetaData vs).length = totalEventMetaDataSizeOf ds := by
  intro ds
  induction ds with
  | nil =>
    intro vs h
    cases vs with
    | nil => simp [MetaDataEvent.serializeMetaData, totalEventMetaDataSizeOf]
    | cons v vs => simp [validatesAgainst] at h
  | cons d rest ih =>
    intro vs h
    cases vs with
    | nil => simp [validatesAgainst] at h
    | cons v vs =>
      simp only [validatesAgainst, Bool.and_eq_true, beq_iff_eq] at h
      obtain ⟨⟨_, hsize⟩, hrest⟩ := h
      rw [serializeMetaData_cons]
      simp only [List.length_append, hsize, ih vs hrest, totalEventMetaDataSizeOf,
        List.map_cons, List.sum_cons]

theorem deserializeLoop_roundtrip :
    ∀ (ds : List MetaDataDescriptor) (vs : List MetaDataValue),
      validatesAgainst vs ds = true →
      ∀ (buf post : List Nat) (ofs size : Nat),
        buf.drop ofs = MetaDataEvent.serializeMetaData vs ++ post →
        ofs + totalEventMetaDataSizeOf ds ≤ size →
        MetaDataEvent.deserializeLoop ds buf ofs size = some vs := by
  intro ds
  induction ds with
  | nil =>
    intro vs h buf post ofs size hbuf hsize
    cases vs with
    | nil => rfl
    | cons v vs => simp [validatesAgainst] at h
  | cons d rest ih =>
    intro vs h buf post ofs size hbuf hsize
    cases vs with
    | nil => simp [validatesAgainst] at h
    | cons v vs =>
      simp only [validatesAgainst, MetaDataValue.isOfType, Bool.and_eq_true,
        beq_iff_eq] at h
      obtain ⟨⟨⟨htype, hlen⟩, hdata⟩, hrest⟩ := h
      have htot : totalEventMetaDataSizeOf (d :: rest) =
          d.getDataSize + totalEventMetaDataSizeOf rest := by
        simp [totalEventMetaDataSizeOf]
      have hnot : ¬ size < ofs + d.getDataSize := by
        have h1 : ofs + d.getDataSize ≤ ofs + totalEventMetaDataSizeOf (d :: rest) := by
          rw [htot, ← Nat.add_assoc]
          exact Nat.le_add_right _ _
        exact Nat.not_lt.mpr (Nat.le_trans h1 hsize)
      have hdropofs : buf.drop ofs = v.m_data ++ (MetaDataEvent.serializeMetaData vs ++ post) := by
        rw [hbuf, serializeMetaData_cons, List.append_assoc]
      have htake : (buf.drop ofs).take d.getDataSize = v.m_data := by
        rw [hdropofs, ← hdata, List.take_left]
      have hdropnext : buf.drop (ofs + d.getDataSize) =
          MetaDataEvent.serializeMetaData vs ++ post := by
        rw [← List.drop_drop, hdropofs, ← hdata, List.drop_left]
      have hrec : MetaDataEvent.deserializeLoop rest buf (ofs + d.getDataSize) size =
          some vs := by
        apply ih vs hrest buf post (ofs + d.getDataSize) size hdropnext
        rw [Nat.add_assoc, ← htot]
        exact hsize
      have hval : MetaDataValue.mk d.m_type d.m_length
          ((buf.drop ofs).take d.getDataSize) = v := by
        cases v with
        | mk vt vl vd =>
          simp only at htype hlen
          simp only at htake
          rw [htake, htype, hlen]
      simp only [MetaDataEvent.deserializeLoop, if_neg hnot, hrec, hval]

theorem deserializeLoop_overrun :
    ∀ (ds : List MetaDataDescriptor) (buf : List Nat) (ofs size : Nat),
      ofs ≤ size → size < ofs + totalEventMetaDataSizeOf ds →
      MetaDataEvent.deserializeLoop ds buf ofs size = none := by
  intro ds
  induction ds with
  | nil =>
    intro buf ofs size hle hlt
    exfalso
    simp [totalEventMetaDataSizeOf] at hlt
    exact Nat.not_lt.mpr hle hlt
  | cons d rest ih =>
    intro buf ofs size hle hlt
    by_cases hfirst : size < ofs + d.getDataSize
    · simp only [MetaDataEvent.deserializeLoop, if_pos hfirst]
    · have hle2 : ofs + d.getDataSize ≤ size := Nat.not_lt.mp hfirst
      have hlt2 : size < ofs + d.getDataSize + totalEventMetaDataSizeOf rest := by
        rw [Nat.add_assoc]
        simpa [totalEventMetaDataSizeOf] using hlt
      have hrec := ih buf (ofs + d.getDataSize) size hle2 hlt2
      simp only [MetaDataEvent.deserializeLoop, if_neg hfirst, hrec]

theorem addEventMetaData_locked (o : MetaDataEventObject) (d : MetaDataDescriptor)
    (h : o.eventMetaDataLock = true) : o.addEventMetaData d = (o, false) := by
  simp [MetaDataEventObject.addEventMetaData, h]

theorem addEventMetaData_unlocked (o : MetaDataEventObject) (d : MetaDataDescriptor)
    (h : o.eventMetaDataLock = false) :
    o.addEventMetaData d =
      ({ o with
          m_eventMetaDataDescriptorArray := o.m_eventMetaDataDescriptorArray ++ [d]
          m_totalSize := o.m_totalSize + d.getDataSize }, true) := by
  simp [MetaDataEventObject.addEventMetaData, h]

theorem addEventMetaDataList_sealed (o : MetaDataEventObject)
    (ds : List MetaDataDescriptor) (h : o.eventMetaDataLock = true) :
    o.addEventMetaDataList ds = o := by
  induction ds with
  | nil => rfl
  | cons d rest ih =>
    have hstep : o.addEventMetaData d = (o, false) := addEventMetaData_locked o d h
    simp [MetaDataEventObject.addEventMetaDataList, List.foldl_cons, hstep] at ih ⊢
    exact ih

theorem addEventMetaDataList_unlocked (ds : List MetaDataDescriptor) :
    ∀ o : MetaDataEventObject, o.eventMetaDataLock = false →
      o.addEventMetaDataList ds =
        { o with
            m_eventMetaDataDescriptorArray := o.m_eventMetaDataDescriptorArray ++ ds
            m_totalSize := o.m_totalSize + totalEventMetaDataSizeOf ds } := by
  induction ds with
  | nil =>
    intro o h
    simp [MetaDataEventObject.addEventMetaDataList, totalEventMetaDataSizeOf]
  | cons d rest ih =>
    intro o h
    have hstep := addEventMetaData_unlocked o d h
    have hnext := ih { o with
        m_eventMetaDataDescriptorArray := o.m_eventMetaDataDescriptorArray ++ [d]
        m_totalSize := o.m_totalSize + d.getDataSize } (by simp [h])
    simp only [MetaDataEventObject.addEventMetaDataList, List.foldl_cons, hstep] at hnext ⊢
    rw [hnext]
    simp [totalEventMetaDataSizeOf, Nat.add_assoc]

-- ----------------------------------------------------------------------
-- Claim theorems: schema objects
-- ----------------------------------------------------------------------

/-- Claim C4: getTypeSize is the fixed pure mapping over the 11 type tags
(CHAR/INT8/UINT8 to 1, INT16/UINT16 to 2, INT32/UINT32/FLOAT to 4,
INT64/UINT64/DOUBLE to 8), and every descriptor with valid (type, length)
satisfies getDataSize = getTypeSize type * length. -/
theorem getTypeSize_mapping_and_getDataSize :
    (MetaDataDescriptor.getTypeSize .CHAR = 1 ∧
     MetaDataDescriptor.getTypeSize .INT8 = 1 ∧
     MetaDataDescriptor.getTypeSize .UINT8 = 1 ∧
     MetaDataDescriptor.getTypeSize .INT16 = 2 ∧
     MetaDataDescriptor.getTypeSize .UINT16 = 2 ∧
     MetaDataDescriptor.getTypeSize .INT32 = 4 ∧
     MetaDataDescriptor.getTypeSize .UINT32 = 4 ∧
     MetaDataDescriptor.getTypeSize .INT64 = 8 ∧
     MetaDataDescriptor.getTypeSize .UINT64 = 8 ∧
     MetaDataDescriptor.getTypeSize .FLOAT = 4 ∧
     MetaDataDescriptor.getTypeSize .DOUBLE = 8) ∧
    ∀ d : MetaDataDescriptor, 1 ≤ d.m_length →
      d.getDataSize = MetaDataDescriptor.getTypeSize d.getType * d.getLength := by
  refine ⟨by decide, ?_⟩
  intro d _
  simp [MetaDataDescriptor.getDataSize, MetaDataDescriptor.getType,
    MetaDataDescriptor.getLength, Nat.mul_comm]

/-- Witness for C4 at a concrete descriptor: INT32 with length 3 has data size
4 * 3. -/
theorem getTypeSize_mapping_and_getDataSize_witness :
    1 ≤ (MetaDataDescriptor.mk .INT32 3 "pos" "position").m_length ∧
      (MetaDataDescriptor.mk .INT32 3 "pos" "position").getDataSize =
        MetaDataDescriptor.getTypeSize
            (MetaDataDescriptor.mk .INT32 3 "pos" "position").getType *
          (MetaDataDescriptor.mk .INT32 3 "pos" "position").getLength :=
  ⟨by decide,
    getTypeSize_mapping_and_getDataSize.2 (MetaDataDescriptor.mk .INT32 3 "pos" "position")
      (by decide)⟩

/-- Claim C9: a freshly constructed MetaDataEventObject is unsealed (lock
false), holds zero descriptors, reports total event metadata size 0, and the
first addEventMetaData always succeeds. -/
theorem newMetaDataEventObject_initial_state :
    newMetaDataEventObject.eventMetaDataLock = false ∧
    newMetaDataEventObject.getEventMetaDataCount = 0 ∧
    newMetaDataEventObject.getTotalEventMetaDataSize = 0 ∧
    ∀ d : MetaDataDescriptor, (newMetaDataEventObject.addEventMetaData d).2 = true := by
  refine ⟨rfl, rfl, rfl, ?_⟩
  intro d
  simp [MetaDataEventObject.addEventMetaData, newMetaDataEventObject]

/-- Claim C5: after any sequence of successful addEventMetaData calls performed
before sealing, getTotalEventMetaDataSize equals the sum of getDataSize over
exactly the descriptors added by those calls (which are exactly the stored
descriptor sequence), and each of those calls indeed succeeded. -/
theorem totalEventMetaDataSize_eq_sum (ds : List MetaDataDescriptor) :
    (newMetaDataEventObject.addEventMetaDataList ds).getTotalEventMetaDataSize =
        (ds.map MetaDataDescriptor.getDataSize).sum ∧
      (newMetaDataEventObject.addEventMetaDataList ds).m_eventMetaDataDescriptorArray = ds ∧
      ∀ pre d post, ds = pre ++ d :: post →
        ((newMetaDataEventObject.addEventMetaDataList pre).addEventMetaData d).2 = true := by
  have hmain := addEventMetaDataList_unlocked ds newMetaDataEventObject rfl
  refine ⟨?_, ?_, ?_⟩
  · rw [hmain]
    simp [MetaDataEventObject.getTotalEventMetaDataSize, newMetaDataEventObject,
      totalEventMetaDataSizeOf]
  · rw [hmain]
    simp [newMetaDataEventObject]
  · intro pre d post _
    have hpre := addEventMetaDataList_unlocked pre newMetaDataEventObject rfl
    rw [hpre]
    simp [MetaDataEventObject.addEventMetaData, newMetaDataEventObject]

/-- Claim C2: once a MetaDataEventObject is sealed (event-metadata lock set on
distribution), every subsequent addEventMetaData call fails and leaves the
schema state (hence getEventMetaDataCount and the descriptor sequence) exactly
as it was before the call, for a single call and for any sequence of calls. -/
theorem sealed_addEventMetaData_rejected (o : MetaDataEventObject)
    (d : MetaDataDescriptor) (ds : List MetaDataDescriptor) :
    ((o.seal).addEventMetaData d).2 = false ∧
    ((o.seal).addEventMetaData d).1 = o.seal ∧
    ((o.seal).addEventMetaData d).1.getEventMetaDataCount = (o.seal).getEventMetaDataCount ∧
    ((o.seal).addEventMetaData d).1.m_eventMetaDataDescriptorArray =
      (o.seal).m_eventMetaDataDescriptorArray ∧
    (o.seal).addEventMetaDataList ds = o.seal := by
  have hlock : (o.seal).eventMetaDataLock = true := rfl
  have hstep := addEventMetaData_locked (o.seal) d hlock
  refine ⟨?_, ?_, ?_, ?_, addEventMetaDataList_sealed (o.seal) ds hlock⟩
  · rw [hstep]
  · rw [hstep]
  · rw [hstep]
  · rw [hstep]

-- ----------------------------------------------------------------------
-- Claim theorems: serializer
-- ----------------------------------------------------------------------

/-- Claim C1: for every value array that validates positionally against a
schema (each value's type and length equal the corresponding descriptor's,
with the matching byte-buffer size), deserializing the bytes produced by
serializeMetaData against that schema yields a value array byte-for-byte
equal to the original. -/
theorem serializeMetaData_deserializeMetaData_roundtrip (o : MetaDataEventObject)
    (vs : List MetaDataValue)
    (h : validatesAgainst vs o.m_eventMetaDataDescriptorArray = true) :
    MetaDataEvent.deserializeMetaData (some o) (MetaDataEvent.serializeMetaData vs)
      (MetaDataEvent.serializeMetaData vs).length = some vs := by
  have hlen := serializeMetaData_length_of_validates o.m_eventMetaDataDescriptorArray vs h
  simp only [MetaDataEvent.deserializeMetaData]
  apply deserializeLoop_roundtrip o.m_eventMetaDataDescriptorArray vs h
      (MetaDataEvent.serializeMetaData vs) [] 0 _
  · simp
  · rw [Nat.zero_add, hlen]

/-- Witness for C1: the sample INT32+CHAR schema with concrete bytes
round-trips exactly. -/
theorem serializeMetaData_deserializeMetaData_roundtrip_witness :
    validatesAgainst sampleValues sampleSchema.m_eventMetaDataDescriptorArray = true ∧
      MetaDataEvent.deserializeMetaData (some sampleSchema)
        (MetaDataEvent.serializeMetaData sampleValues)
        (MetaDataEvent.serializeMetaData sampleValues).length = some sampleValues :=
  ⟨by decide,
    serializeMetaData_deserializeMetaData_roundtrip sampleSchema sampleValues (by decide)⟩

/-- Claim C6: deserializeMetaData fails when the schema is null or when the
cumulative bytes required by the schema's descriptors exceed the declared
size, and on failure no partial value array is returned as valid (the result
is none, never a valid-looking prefix). -/
theorem deserializeMetaData_rejects_null_and_overrun :
    (∀ (buf : List Nat) (size : Nat),
        MetaDataEvent.deserializeMetaData none buf size = none) ∧
    ∀ (o : MetaDataEventObject) (buf : List Nat) (size : Nat),
      size < totalEventMetaDataSizeOf o.m_eventMetaDataDescriptorArray →
      MetaDataEvent.deserializeMetaData (some o) buf size = none := by
  constructor
  · intro buf size
    rfl
  · intro o buf size hlt
    simp only [MetaDataEvent.deserializeMetaData]
    exact deserializeLoop_overrun o.m_eventMetaDataDescriptorArray buf 0 size
      (Nat.zero_le _) (by simpa using hlt)

/-- Witness for C6: a declared size of 3 is below the sample schema's 6
required bytes, so deserialization fails. -/
theorem deserializeMetaData_rejects_null_and_overrun_witness :
    3 < totalEventMetaDataSizeOf sampleSchema.m_eventMetaDataDescriptorArray ∧
      MetaDataEvent.deserializeMetaData (some sampleSchema) [0, 0, 0] 3 = none :=
  ⟨by decide,
    deserializeMetaData_rejects_null_and_overrun.2 sampleSchema [0, 0, 0] 3 (by decide)⟩

/-- Claim C7: invoking a getValue/setValue accessor with a type or shape that
does not match the value's (type, length) tag fails with a type-mismatch
condition: the read returns no bytes (never the stored bytes reinterpreted at
the requested type) and the write produces no updated value. -/
theorem mismatched_accessor_rejected (v : MetaDataValue) (sh : AccessShape)
    (bytes : List Nat) (h : v.accessMatches sh = false) :
    v.getValue sh = none ∧ v.setValue sh bytes = none := by
  constructor
  · simp [MetaDataValue.getValue, h]
  · simp [MetaDataValue.setValue, h]

/-- Witness for C7: a scalar INT32 read on a DOUBLE value is rejected for both
read and write. -/
theorem mismatched_accessor_rejected_witness :
    MetaDataValue.accessMatches
        { m_type := .DOUBLE, m_length := 1, m_data := [0, 0, 0, 0, 0, 0, 0, 0] }
        (.scalar .INT32) = false ∧
      MetaDataValue.getValue
          { m_type := .DOUBLE, m_length := 1, m_data := [0, 0, 0, 0, 0, 0, 0, 0] }
          (.scalar .INT32) = none ∧
      MetaDataValue.setValue
          { m_type := .DOUBLE, m_length := 1, m_data := [0, 0, 0, 0, 0, 0, 0, 0] }
          (.scalar .INT32) [9, 9, 9, 9] = none :=
  ⟨by decide,
    (mismatched_accessor_rejected
        { m_type := .DOUBLE, m_length := 1, m_data := [0, 0, 0, 0, 0, 0, 0, 0] }
        (.scalar .INT32) [9, 9, 9, 9] (by decide)).1,
    (mismatched_accessor_rejected
        { m_type := .DOUBLE, m_length := 1, m_data := [0, 0, 0, 0, 0, 0, 0, 0] }
        (.scalar .INT32) [9, 9, 9, 9] (by decide)).2⟩

theorem listSet_getD_eq {α : Type} (l : List α) :
    ∀ (i : Nat) (a dflt : α), i < l.length → (l.set i a).getD i dflt = a := by
  induction l with
  | nil => intro i a dflt h; exact absurd h (by simp)
  | cons x t ih =>
    intro i a dflt h
    cases i with
    | zero => rfl
    | succ n =>
      simp only [List.set, List.getD, List.get?]
      exact ih n a dflt (by simpa using h)

theorem createDataSetPairs_some_k (env : Nat → Bool) :
    ∀ (infos : List NWBRecording.NWBRecordingInfo) (k : Nat)
      (a b : List NWBRecording.HDF5RecordingData) (k2 : Nat),
      NWBRecording.createDataSetPairs env k infos = some (a, b, k2) →
      k2 = k + 2 * infos.length := by
  intro infos
  induction infos with
  | nil =>
    intro k a b k2 h
    simp only [NWBRecording.createDataSetPairs, Option.some.injEq, Prod.mk.injEq] at h
    obtain ⟨_, _, hk⟩ := h
    simp only [List.length_nil]
    omega
  | cons i rest ih =>
    intro k a b k2 h
    simp only [NWBRecording.createDataSetPairs] at h
    split at h
    · split at h
      · exact absurd h (by simp)
      · rename_i ds ts k2i heq
        simp only [Option.some.injEq, Prod.mk.injEq] at h
        obtain ⟨_, _, hk⟩ := h
        have := ih (k + 2) ds ts k2i heq
        simp only [List.length_cons]
        omega
    · exact absurd h (by simp)

theorem createDataSetPairs_none_of_failure (env : Nat → Bool) :
    ∀ (infos : List NWBRecording.NWBRecordingInfo) (k : Nat),
      (∃ j, k ≤ j ∧ j < k + 2 * infos.length ∧ env j = false) →
      NWBRecording.createDataSetPairs env k infos = none := by
  intro infos
  induction infos with
  | nil =>
    intro k h
    obtain ⟨j, hkj, hlt, _⟩ := h
    exfalso
    simp only [List.length_nil] at hlt
    omega
  | cons i rest ih =>
    intro k h
    obtain ⟨j, hkj, hlt, hj⟩ := h
    simp only [List.length_cons] at hlt
    by_cases h1 : env k = true
    · by_cases h2 : env (k + 1) = true
      · have hge : k + 2 ≤ j := by
          rcases Nat.lt_or_ge j (k + 2) with hc | hc
          · exfalso
            have : j = k ∨ j = k + 1 := by omega
            rcases this with rfl | rfl
            · rw [h1] at hj; exact Bool.noConfusion hj
            · rw [h2] at hj; exact Bool.noConfusion hj
          · exact hc
        have hrec := ih (k + 2) ⟨j, hge, by omega, hj⟩
        simp [NWBRecording.createDataSetPairs, h1, h2, hrec]
      · have h2f : env (k + 1) = false := by
          revert h2; cases env (k + 1) <;> simp
        simp [NWBRecording.createDataSetPairs, h1, h2f]
    · have h1f : env k = false := by
        revert h1; cases env k <;> simp
      simp [NWBRecording.createDataSetPairs, h1f]

-- ----------------------------------------------------------------------
-- Claim theorems: file writer
-- ----------------------------------------------------------------------

/-- Claim C3: if any dataset creation fails during startNewRecording (any of
the 2 per continuous group, 2 per electrode, and 5 shared creations), the
whole call reports failure and no dataset created during the attempt is left
attached as active for subsequent writes. -/
theorem startNewRecording_failure_no_active (f : NWBRecording.NWBFile)
    (env : Nat → Bool) (recordingNumber : Int)
    (continuousArray electrodeArray : List NWBRecording.NWBRecordingInfo)
    (h : ∃ k, k < 2 * continuousArray.length + 2 * electrodeArray.length + 5 ∧
      env k = false) :
    (f.startNewRecording env recordingNumber continuousArray electrodeArray).2 = false ∧
      NWBRecording.noActiveDataSets
        (f.startNewRecording env recordingNumber continuousArray electrodeArray).1 := by
  obtain ⟨k, hk, hkf⟩ := h
  have hclear : NWBRecording.noActiveDataSets (NWBRecording.clearDataSets f) := by
    simp [NWBRecording.noActiveDataSets, NWBRecording.clearDataSets]
  cases hc : NWBRecording.createDataSetPairs env 0 continuousArray with
  | none =>
    have hres : f.startNewRecording env recordingNumber continuousArray electrodeArray =
        (NWBRecording.clearDataSets f, false) := by
      simp [NWBRecording.NWBFile.startNewRecording, hc]
    rw [hres]
    exact ⟨rfl, hclear⟩
  | some val =>
    obtain ⟨cd, cdts, k1⟩ := val
    have hk1 : k1 = 2 * continuousArray.length := by
      have := createDataSetPairs_some_k env continuousArray 0 cd cdts k1 hc
      omega
    cases he : NWBRecording.createDataSetPairs env k1 electrodeArray with
    | none =>
      have hres : f.startNewRecording env recordingNumber continuousArray electrodeArray =
          (NWBRecording.clearDataSets f, false) := by
        simp [NWBRecording.NWBFile.startNewRecording, hc, he]
      rw [hres]
      exact ⟨rfl, hclear⟩
    | some val2 =>
      obtain ⟨sd, sdts, k2⟩ := val2
      have hk2 : k2 = 2 * continuousArray.length + 2 * electrodeArray.length := by
        have := createDataSetPairs_some_k env electrodeArray k1 sd sdts k2 he
        omega
      have hknotc : ¬ k < 2 * continuousArray.length := by
        intro hlt
        have hnone := createDataSetPairs_none_of_failure env continuousArray 0
          ⟨k, Nat.zero_le k, by omega, hkf⟩
        rw [hnone] at hc
        exact Option.noConfusion hc
      have hknote : ¬ (2 * continuousArray.length ≤ k ∧ k < k2) := by
        rintro ⟨hge, hlt⟩
        have hnone := createDataSetPairs_none_of_failure env electrodeArray k1
          ⟨k, by omega, by omega, hkf⟩
        rw [hnone] at he
        exact Option.noConfusion he
      have hge2 : k2 ≤ k := by
        by_cases hcase : k < k2
        · exfalso
          by_cases hcase2 : k < 2 * continuousArray.length
          · exact hknotc hcase2
          · exact hknote ⟨by omega, hcase⟩
        · omega
      have hcases : k = k2 ∨ k = k2 + 1 ∨ k = k2 + 2 ∨ k = k2 + 3 ∨ k = k2 + 4 := by
        omega
      have hcond : (env k2 && env (k2 + 1) && env (k2 + 2) && env (k2 + 3) &&
          env (k2 + 4)) = false := by
        rcases hcases with rfl | rfl | rfl | rfl | rfl <;> simp [hkf]
      have hres : f.startNewRecording env recordingNumber continuousArray electrodeArray =
          (NWBRecording.clearDataSets f, false) := by
        simp [NWBRecording.NWBFile.startNewRecording, hc, he, hcond]
      rw [hres]
      exact ⟨rfl, hclear⟩

/-- Witness for C3: with a container oracle that fails every creation, a start
with one continuous group and no electrodes fails and leaves no active
dataset. -/
theorem startNewRecording_failure_no_active_witness :
    (∃ k, k < 2 * ([sampleInfo] : List NWBRecording.NWBRecordingInfo).length +
        2 * ([] : List NWBRecording.NWBRecordingInfo).length + 5 ∧
        (fun _ : Nat => false) k = false) ∧
      (NWBRecording.NWBFile.startNewRecording sampleNWBFile (fun _ => false) 1
        [sampleInfo] []).2 = false ∧
      NWBRecording.noActiveDataSets
        (NWBRecording.NWBFile.startNewRecording sampleNWBFile (fun _ => false) 1
          [sampleInfo] []).1 :=
  ⟨⟨0, by decide, rfl⟩,
    startNewRecording_failure_no_active sampleNWBFile (fun _ => false) 1
      [sampleInfo] [] ⟨0, by decide, rfl⟩⟩

/-- Claim C8: a writeData or writeTimestamps call with nSamples = 0 is a
no-op: the whole writer state, in particular the addressed dataset's row
count and the per-dataset running sample counter, is exactly what it was
before the call. -/
theorem writeData_writeTimestamps_zero_noop (f : NWBRecording.NWBFile)
    (datasetID channel : Nat) (data : List Int) (tsData : List Rat) :
    f.writeData datasetID channel 0 data = f ∧
      f.writeTimestamps datasetID 0 tsData = f := by
  have hrows : ∀ (l : List NWBRecording.HDF5RecordingData) (i : Nat),
      NWBRecording.appendRows l i 0 = l := by
    intro l i
    have heta : ({ rows := (l.getD i { rows := 0 }).rows } :
        NWBRecording.HDF5RecordingData) = l.getD i { rows := 0 } := rfl
    simp only [NWBRecording.appendRows, Nat.add_zero, heta, listSet_getD_self]
  have hcnt : ∀ (l : List Nat) (i : Nat), NWBRecording.bumpCounter l i 0 = l := by
    intro l i
    simp only [NWBRecording.bumpCounter, Nat.add_zero, listSet_getD_self]
  constructor
  · simp only [NWBRecording.NWBFile.writeData, hrows, hcnt]
  · simp only [NWBRecording.NWBFile.writeTimestamps, hrows]

/-- Claim C10: each append operation of the file writer mutates only its own
stream's state.  writeData touches only the addressed dataset's continuous
entry and counter; writeTimestamps only the addressed timestamp dataset;
writeSpike only the addressed electrode's spike entries; writeTTLEvent grows
only the events stream and its counter; writeMessage only the messages stream
and its counter.  All other per-stream counters and datasets are unchanged by
that call. -/
theorem writer_append_frame_effects (f : NWBRecording.NWBFile)
    (datasetID channel nSamples : Nat) (data : List Int) (tsData : List Rat)
    (electrodeId : Nat) (waveform : List Nat) (spikeTS : Nat)
    (evChannel evId : Int) (evSource evTS : Nat) (msg : String) (msgTS : Nat) :
    ((∀ j, j ≠ datasetID →
        (f.writeData datasetID channel nSamples data).numContinuousSamples.getD j 0 =
            f.numContinuousSamples.getD j 0 ∧
          (f.writeData datasetID channel nSamples data).continuousDataSets.getD j
              { rows := 0 } = f.continuousDataSets.getD j { rows := 0 }) ∧
      (datasetID < f.numContinuousSamples.length →
        (f.writeData datasetID channel nSamples data).numContinuousSamples.getD
            datasetID 0 = f.numContinuousSamples.getD datasetID 0 + nSamples) ∧
      (f.writeData datasetID channel nSamples data).continuousDataSetsTS =
          f.continuousDataSetsTS ∧
      (f.writeData datasetID channel nSamples data).numSpikes = f.numSpikes ∧
      (f.writeData datasetID channel nSamples data).spikeDataSets = f.spikeDataSets ∧
      (f.writeData datasetID channel nSamples data).spikeDataSetsTS = f.spikeDataSetsTS ∧
      (f.writeData datasetID channel nSamples data).eventsDataSet = f.eventsDataSet ∧
      (f.writeData datasetID channel nSamples data).eventsDataSetTS = f.eventsDataSetTS ∧
      (f.writeData datasetID channel nSamples data).numEvents = f.numEvents ∧
      (f.writeData datasetID channel nSamples data).messagesDataSet = f.messagesDataSet ∧
      (f.writeData datasetID channel nSamples data).messagesDataSetTS =
          f.messagesDataSetTS ∧
      (f.writeData datasetID channel nSamples data).numMessages = f.numMessages ∧
      (f.writeData datasetID channel nSamples data).eventsControlDataSet =
          f.eventsControlDataSet) ∧
    ((∀ j, j ≠ datasetID →
        (f.writeTimestamps datasetID nSamples tsData).continuousDataSetsTS.getD j
            { rows := 0 } = f.continuousDataSetsTS.getD j { rows := 0 }) ∧
      (f.writeTimestamps datasetID nSamples tsData).continuousDataSets =
          f.continuousDataSets ∧
      (f.writeTimestamps datasetID nSamples tsData).numContinuousSamples =
          f.numContinuousSamples ∧
      (f.writeTimestamps datasetID nSamples tsData).numSpikes = f.numSpikes ∧
      (f.writeTimestamps datasetID nSamples tsData).spikeDataSets = f.spikeDataSets ∧
      (f.writeTimestamps datasetID nSamples tsData).spikeDataSetsTS = f.spikeDataSetsTS ∧
      (f.writeTimestamps datasetID nSamples tsData).eventsDataSet = f.eventsDataSet ∧
      (f.writeTimestamps datasetID nSamples tsData).eventsDataSetTS = f.eventsDataSetTS ∧
      (f.writeTimestamps datasetID nSamples tsData).numEvents = f.numEvents ∧
      (f.writeTimestamps datasetID nSamples tsData).messagesDataSet = f.messagesDataSet ∧
      (f.writeTimestamps datasetID nSamples tsData).messagesDataSetTS =
          f.messagesDataSetTS ∧
      (f.writeTimestamps datasetID nSamples tsData).numMessages = f.numMessages ∧
      (f.writeTimestamps datasetID nSamples tsData).eventsControlDataSet =
          f.eventsControlDataSet) ∧
    ((electrodeId < f.numSpikes.length →
        (f.writeSpike electrodeId waveform spikeTS).numSpikes.getD electrodeId 0 =
          f.numSpikes.getD electrodeId 0 + 1) ∧
      (∀ j, j ≠ electrodeId →
        (f.writeSpike electrodeId waveform spikeTS).numSpikes.getD j 0 =
            f.numSpikes.getD j 0 ∧
          (f.writeSpike electrodeId waveform spikeTS).spikeDataSets.getD j
              { rows := 0 } = f.spikeDataSets.getD j { rows := 0 } ∧
          (f.writeSpike electrodeId waveform spikeTS).spikeDataSetsTS.getD j
              { rows := 0 } = f.spikeDataSetsTS.getD j { rows := 0 }) ∧
      (f.writeSpike electrodeId waveform spikeTS).continuousDataSets =
          f.continuousDataSets ∧
      (f.writeSpike electrodeId waveform spikeTS).continuousDataSetsTS =
          f.continuousDataSetsTS ∧
      (f.writeSpike electrodeId waveform spikeTS).numContinuousSamples =
          f.numContinuousSamples ∧
      (f.writeSpike electrodeId waveform spikeTS).eventsDataSet = f.eventsDataSet ∧
      (f.writeSpike electrodeId waveform spikeTS).eventsDataSetTS = f.eventsDataSetTS ∧
      (f.writeSpike electrodeId waveform spikeTS).numEvents = f.numEvents ∧
      (f.writeSpike electrodeId waveform spikeTS).messagesDataSet = f.messagesDataSet ∧
      (f.writeSpike electrodeId waveform spikeTS).messagesDataSetTS =
          f.messagesDataSetTS ∧
      (f.writeSpike electrodeId waveform spikeTS).numMessages = f.numMessages ∧
      (f.writeSpike electrodeId waveform spikeTS).eventsControlDataSet =
          f.eventsControlDataSet) ∧
    ((f.writeTTLEvent evChannel evId evSource evTS).numEvents = f.numEvents + 1 ∧
      (f.writeTTLEvent evChannel evId evSource evTS).continuousDataSets =
          f.continuousDataSets ∧
      (f.writeTTLEvent evChannel evId evSource evTS).continuousDataSetsTS =
          f.continuousDataSetsTS ∧
      (f.writeTTLEvent evChannel evId evSource evTS).numContinuousSamples =
          f.numContinuousSamples ∧
      (f.writeTTLEvent evChannel evId evSource evTS).spikeDataSets = f.spikeDataSets ∧
      (f.writeTTLEvent evChannel evId evSource evTS).spikeDataSetsTS =
          f.spikeDataSetsTS ∧
      (f.writeTTLEvent evChannel evId evSource evTS).numSpikes = f.numSpikes ∧
      (f.writeTTLEvent evChannel evId evSource evTS).messagesDataSet =
          f.messagesDataSet ∧
      (f.writeTTLEvent evChannel evId evSource evTS).messagesDataSetTS =
          f.messagesDataSetTS ∧
      (f.writeTTLEvent evChannel evId evSource evTS).numMessages = f.numMessages ∧
      (f.writeTTLEvent evChannel evId evSource evTS).eventsControlDataSet =
          f.eventsControlDataSet) ∧
    ((f.writeMessage msg msgTS).numMessages = f.numMessages + 1 ∧
      (f.writeMessage msg msgTS).continuousDataSets = f.continuousDataSets ∧
      (f.writeMessage msg msgTS).continuousDataSetsTS = f.continuousDataSetsTS ∧
      (f.writeMessage msg msgTS).numContinuousSamples = f.numContinuousSamples ∧
      (f.writeMessage msg msgTS).spikeDataSets = f.spikeDataSets ∧
      (f.writeMessage msg msgTS).spikeDataSetsTS = f.spikeDataSetsTS ∧
      (f.writeMessage msg msgTS).numSpikes = f.numSpikes ∧
      (f.writeMessage msg msgTS).eventsDataSet = f.eventsDataSet ∧
      (f.writeMessage msg msgTS).eventsDataSetTS = f.eventsDataSetTS ∧
      (f.writeMessage msg msgTS).numEvents = f.numEvents ∧
      (f.writeMessage msg msgTS).eventsControlDataSet = f.eventsControlDataSet) := by
  refine ⟨⟨?_, ?_, rfl, rfl, rfl, rfl, rfl, rfl, rfl, rfl, rfl, rfl, rfl⟩,
    ⟨?_, rfl, rfl, rfl, rfl, rfl, rfl, rfl, rfl, rfl, rfl, rfl, rfl⟩,
    ⟨?_, ?_, rfl, rfl, rfl, rfl, rfl, rfl, rfl, rfl, rfl, rfl⟩,
    ⟨rfl, rfl, rfl, rfl, rfl, rfl, rfl, rfl, rfl, rfl, rfl⟩,
    ⟨rfl, rfl, rfl, rfl, rfl, rfl, rfl, rfl, rfl, rfl, rfl⟩⟩
  · intro j hj
    exact ⟨listSet_getD_ne f.numContinuousSamples datasetID j _ 0 (Ne.symm hj),
      listSet_getD_ne f.continuousDataSets datasetID j _ { rows := 0 } (Ne.symm hj)⟩
  · intro hlen
    exact listSet_getD_eq f.numContinuousSamples datasetID _ 0 hlen
  · intro j hj
    exact listSet_getD_ne f.continuousDataSetsTS datasetID j _ { rows := 0 } (Ne.symm hj)
  · intro hlen
    exact listSet_getD_eq f.numSpikes electrodeId _ 0 hlen
  · intro j hj
    exact ⟨listSet_getD_ne f.numSpikes electrodeId j _ 0 (Ne.symm hj),
      listSet_getD_ne f.spikeDataSets electrodeId j _ { rows := 0 } (Ne.symm hj),
      listSet_getD_ne f.spikeDataSetsTS electrodeId j _ { rows := 0 } (Ne.symm hj)⟩

/-- Witness for C10 at the concrete sample writer: a writeData on dataset 0
leaves dataset 1's counter alone, and a writeSpike on electrode 0 increments
exactly that electrode's spike counter. -/
theorem writer_append_frame_effects_witness :
    ((1 : Nat) ≠ 0) ∧
      (sampleNWBFile.writeData 0 0 5 []).numContinuousSamples.getD 1 0 =
        sampleNWBFile.numContinuousSamples.getD 1 0 ∧
      0 < sampleNWBFile.numSpikes.length ∧
      (sampleNWBFile.writeSpike 0 [] 0).numSpikes.getD 0 0 =
        sampleNWBFile.numSpikes.getD 0 0 + 1 :=
  ⟨by decide,
    ((writer_append_frame_effects sampleNWBFile 0 0 5 [] [] 0 [] 0 0 0 0 0 "" 0).1.1
      1 (by decide)).1,
    by decide,
    (writer_append_frame_effects sampleNWBFile 0 0 5 [] [] 0 [] 0 0 0 0 0 "" 0).2.2.1.1
      (by decide)⟩

/-- Witness for C5 at a concrete two-descriptor sequence: the second add,
performed after the first, succeeds. -/
theorem totalEventMetaDataSize_eq_sum_witness :
    ([sampleDescInt, sampleDescChar] = [sampleDescInt] ++ sampleDescChar :: []) ∧
      ((newMetaDataEventObject.addEventMetaDataList
          [sampleDescInt]).addEventMetaData sampleDescChar).2 = true :=
  ⟨rfl,
    (totalEventMetaDataSize_eq_sum [sampleDescInt, sampleDescChar]).2.2
      [sampleDescInt] sampleDescChar [] rfl⟩
